import Mathlib

/-!
Shallow embedding of the `ic_log` crate (a fork of `env_logger` targeting the
Internet Computer) for checking its specification.

The filter engine (directive parsing and compiled matching) lives in the
crate's `filter` module; only its interface appears under `src/` here, so
those parts are modelled from the specification (sections 3, 4.1, 4.2), as
marked by doc comments. The logger facade (`Logger::log`, `Builder`), the
byte buffer (`fmt/writer/termcolor/imp.rs`) and the writer builder
(`fmt/writer/mod.rs`) are embedded from the source.

Strings are represented as `List Char`; machine byte vectors as lists of
`Nat` with an explicit capacity field mirroring `Vec<u8>` semantics
(`clear` keeps capacity, `extend` grows it).
-/

namespace IcLog

/-- Severity of an emitted record, `log::Level`: `Error < Warn < Info < Debug < Trace`. -/
inductive Level where
  | Error
  | Warn
  | Info
  | Debug
  | Trace
deriving DecidableEq, Repr

/-- Severity threshold of a directive, `log::LevelFilter`: adds `Off` below `Error`. -/
inductive LevelFilter where
  | Off
  | Error
  | Warn
  | Info
  | Debug
  | Trace
deriving DecidableEq, Repr

/-- Numeric form of a `LevelFilter` (`Off = 0`, …, `Trace = 5`). -/
def LevelFilter.toNat : LevelFilter → Nat
  | .Off => 0
  | .Error => 1
  | .Warn => 2
  | .Info => 3
  | .Debug => 4
  | .Trace => 5

/-- Numeric form of a `Level` (`Error = 1`, …, `Trace = 5`). -/
def Level.toNat : Level → Nat
  | .Error => 1
  | .Warn => 2
  | .Info => 3
  | .Debug => 4
  | .Trace => 5

/-- The `LevelFilter` a record `Level` corresponds to. -/
def Level.toFilter : Level → LevelFilter
  | .Error => .Error
  | .Warn => .Warn
  | .Info => .Info
  | .Debug => .Debug
  | .Trace => .Trace

/-- Order test on thresholds, `a <= b` in the severity order. -/
def LevelFilter.le (a b : LevelFilter) : Bool :=
  a.toNat ≤ b.toNat

/-- Maximum of two thresholds in the severity order. -/
def LevelFilter.max (a b : LevelFilter) : LevelFilter :=
  if a.toNat ≤ b.toNat then b else a

/-- Modelled from the spec (section 3, missing `filter` module): a directive pairs an
optional module-path name with a severity threshold; `name = none` is the
global catch-all directive. -/
structure Directive where
  name : Option (List Char)
  level : LevelFilter
deriving DecidableEq, Repr

/-! Character-list helpers used by the directive parser. -/

/-- Splits a character list on a separator character; always returns at least
one (possibly empty) piece. -/
def splitOnChar (c : Char) : List Char → List (List Char)
  | [] => [[]]
  | x :: xs =>
    let r := splitOnChar c xs
    if x = c then [] :: r
    else
      match r with
      | [] => [[x]]
      | y :: ys => (x :: y) :: ys

/-- Joins pieces with a separator character (inverse of `splitOnChar`). -/
def joinChar (c : Char) : List (List Char) → List Char
  | [] => []
  | [x] => x
  | x :: xs => x ++ c :: joinChar c xs

/-- Removes leading and trailing whitespace. -/
def trimChars (s : List Char) : List Char :=
  ((s.dropWhile Char.isWhitespace).reverse.dropWhile Char.isWhitespace).reverse

/-- Modelled from the spec (section 4.1, missing `filter` module): severity names are
case-insensitive full names, the sentinel `off`, or a numeric alias 0–5. -/
def parse_level (s : List Char) : Option LevelFilter :=
  let l := s.map Char.toLower
  if l = "off".data then some .Off
  else if l = "error".data then some .Error
  else if l = "warn".data then some .Warn
  else if l = "info".data then some .Info
  else if l = "debug".data then some .Debug
  else if l = "trace".data then some .Trace
  else if l = "0".data then some .Off
  else if l = "1".data then some .Error
  else if l = "2".data then some .Warn
  else if l = "3".data then some .Info
  else if l = "4".data then some .Debug
  else if l = "5".data then some .Trace
  else none

/-- Modelled from the spec (section 4.1, missing `filter` module): one comma-separated
entry is a bare severity (global directive), a bare module path (enabled at
the implicit default `Trace`), or `module-path=severity`. Whitespace around
the entry is trimmed; an empty entry is skipped; an unknown severity token
or a malformed shape is a reported error. -/
def parse_entry (s : List Char) : Except (List Char) (Option Directive) :=
  let t := trimChars s
  if t.isEmpty then .ok none
  else
    match splitOnChar '=' t with
    | [single] =>
      match parse_level single with
      | some lv => .ok (some ⟨none, lv⟩)
      | none => .ok (some ⟨some single, .Trace⟩)
    | [m, lvtok] =>
      match parse_level lvtok with
      | some lv => .ok (some ⟨some m, lv⟩)
      | none => .error t
    | _ => .error t

/-- Result of parsing a directive-specification string: the ordered directive
list, the reported errors, and the optional content pattern. -/
structure ParseResult where
  directives : List Directive
  errors : List (List Char)
  pattern : Option (List Char)
deriving DecidableEq, Repr

/-- Accumulates one parsed entry: a skipped entry changes nothing, a valid
entry is appended to the directive list, a malformed one to the errors. -/
def parse_step (acc : List Directive × List (List Char)) (e : List Char) :
    List Directive × List (List Char) :=
  match parse_entry e with
  | .ok none => acc
  | .ok (some d) => (acc.1 ++ [d], acc.2)
  | .error msg => (acc.1, acc.2 ++ [msg])

/-- Modelled from the spec (sections 4.1 and 7a, missing `filter` module): the string
splits at the first `/` into a comma-separated directive part and an
optional content pattern; malformed entries are reported but do not abort
parsing of the remaining entries. -/
def parse_spec (s : List Char) : ParseResult :=
  let parts := splitOnChar '/' s
  let dirPart := parts.headD []
  let pat : Option (List Char) :=
    match parts with
    | [] => none
    | [_] => none
    | _ :: rest => some (joinChar '/' rest)
  let r := (splitOnChar ',' dirPart).foldl parse_step ([], [])
  ⟨r.1, r.2, pat⟩

/-! The compiled filter and its matching algorithm. -/

/-- Length used for the longest-prefix comparison: the global directive counts
as the shortest possible prefix. -/
def dirLen (n : Option (List Char)) : Nat :=
  match n with
  | none => 0
  | some s => s.length

/-- Modelled from the spec (section 4.2, missing `filter` module): a directive applies
to a target when its name is absent (global) or is a textual prefix of the
target. -/
def dirMatches (d : Directive) (target : List Char) : Bool :=
  match d.name with
  | none => true
  | some n => n.isPrefixOf target

/-- Modelled from the spec (sections 2 and 3, missing `filter` module): an immutable
compiled filter holds the ordered directives, the precomputed maximum
enabled severity, and the optional content pattern. -/
structure Filter where
  directives : List Directive
  max_level : LevelFilter
  pattern : Option (List Char)
deriving DecidableEq, Repr

/-- Modelled from the spec (section 3, missing `filter` module): building a filter
stores the directives in declaration order and precomputes `max_level` as
the maximum threshold across all directives (`Off` for an empty list). -/
def build_filter (ds : List Directive) (pat : Option (List Char)) : Filter :=
  ⟨ds, ds.foldl (fun m d => LevelFilter.max m d.level) .Off, pat⟩

/-- Parses a specification string and compiles it into a filter. -/
def filter_of_spec (s : List Char) : Filter :=
  let r := parse_spec s
  build_filter r.directives r.pattern

/-- One step of the compiled pass: a matching directive replaces the current
best candidate when its prefix is at least as long (so a later directive
wins ties); a non-matching directive is skipped. -/
def stepBest (target : List Char) (best : Option Directive) (d : Directive) :
    Option Directive :=
  if dirMatches d target then
    match best with
    | none => some d
    | some b => if dirLen b.name ≤ dirLen d.name then some d else some b
  else best

/-- Modelled from the spec (section 4.2, missing `filter` module): single left-to-right
pass keeping the best candidate so far — a strictly longer matching prefix
replaces the current best, and an equally long one also replaces it, so
the last-declared directive wins ties. -/
def selectBest (ds : List Directive) (target : List Char) : Option Directive :=
  ds.foldl (stepBest target) none

/-- Modelled from the spec (section 4.2, missing `filter` module): a record is enabled
when the selected directive's threshold admits its level; with no matching
directive the target is disabled. -/
def Filter.enabled (f : Filter) (target : List Char) (level : Level) : Bool :=
  match selectBest f.directives target with
  | none => false
  | some d => level.toNat ≤ d.level.toNat

/-- Accessor mirroring `Filter::filter` (and `Logger::filter`): the stored
maximum enabled severity. -/
def Filter.filter (f : Filter) : LevelFilter :=
  f.max_level

/-- Substring test for the content pattern. -/
def containsSub (msg p : List Char) : Bool :=
  match msg with
  | [] => p.isEmpty
  | _ :: rest => p.isPrefixOf msg || containsSub rest p

/-- Modelled from the spec (section 4.2, missing `filter` module): `matches` requires
`enabled` first, then the content pattern (substring semantics) on the
rendered message when one is configured. -/
def Filter.matchesRecord (f : Filter) (target : List Char) (level : Level)
    (msg : List Char) : Bool :=
  f.enabled target level &&
    match f.pattern with
    | none => true
    | some p => containsSub msg p

/-! Reference linear scan, written from the claim wording: among directives
whose prefix matches, take the one with the longest prefix, ties broken by
last declared. -/

/-- Directives of the list applying to the target, in declaration order. -/
def matchingDirs (ds : List Directive) (target : List Char) : List Directive :=
  ds.filter (fun d => dirMatches d target)

/-- Length of the longest matching prefix among the directives that apply to
the target (0 when none applies). -/
def maxPrefixLen (ds : List Directive) (target : List Char) : Nat :=
  match ds with
  | [] => 0
  | d :: rest =>
    if dirMatches d target then
      Nat.max (dirLen d.name) (maxPrefixLen rest target)
    else maxPrefixLen rest target

/-- Declarative selection: among the applying directives, those of maximal
prefix length, the last declared of them. -/
def scanSelect (ds : List Directive) (target : List Char) : Option Directive :=
  ((matchingDirs ds target).filter
    (fun d => dirLen d.name = maxPrefixLen ds target)).getLast?

/-- Declarative `enabled` computed by the direct linear scan. -/
def scanEnabled (ds : List Directive) (target : List Char) (level : Level) : Bool :=
  match scanSelect ds target with
  | none => false
  | some d => level.toNat ≤ d.level.toNat

/-- Maximum `dirLen` over a directive list. -/
def maxLenOf (l : List Directive) : Nat :=
  l.foldr (fun d m => Nat.max (dirLen d.name) m) 0

/-! The byte sink, the per-thread formatter cache, the logger facade and the
builders. The buffer and the writer builder are embedded from
`fmt/writer/termcolor/imp.rs` and `fmt/writer/mod.rs`; `Logger::log`,
`Builder::build` and `Builder::try_init` from `lib.rs`. The `Formatter`
shell and the write style live in the crate's missing `fmt` module and are
modelled from the spec (section 3, FormatterState). -/

/-- Error type of the `io::Result` values in the sink interface. -/
structure IoError where
  msg : List Char
deriving DecidableEq, Repr

/-- Modelled from the spec (missing `fmt` module): the output-styling
configuration whose snapshot a cached formatter carries. -/
inductive WriteStyle where
  | Auto
  | Always
  | Never
deriving DecidableEq, Repr

/-- Byte buffer of `fmt/writer/termcolor/imp.rs`: the content of the
underlying `Vec<u8>` together with its capacity; `clear` keeps the
capacity, `extend` grows it to at least the new length. -/
structure Buffer where
  data : List Nat
  cap : Nat
deriving DecidableEq, Repr

/-- Fresh empty buffer (`Vec::new`). -/
def Buffer.new : Buffer :=
  ⟨[], 0⟩

/-- Embeds `Buffer::clear`: drops the content, keeps the capacity. -/
def Buffer.clear (b : Buffer) : Buffer :=
  { b with data := [] }

/-- Embeds `Buffer::write`: appends the bytes and returns `Ok(buf.len())`. -/
def Buffer.write (b : Buffer) (buf : List Nat) : Buffer × Except IoError Nat :=
  (⟨b.data ++ buf, Nat.max b.cap (b.data.length + buf.length)⟩, .ok buf.length)

/-- Embeds `Buffer::flush`: does nothing and returns `Ok(())`. -/
def Buffer.flush (b : Buffer) : Buffer × Except IoError Unit :=
  (b, .ok ())

/-- The field-less `BufferWriter` of `fmt/writer/termcolor/imp.rs`. -/
structure BufferWriter where
deriving DecidableEq, Repr

/-- Embeds `BufferWriter::print`: hands the buffer's bytes to the platform
sink and returns `Ok(())`; the delivered bytes are returned explicitly. -/
def BufferWriter.print (_ : BufferWriter) (b : Buffer) :
    Except IoError Unit × List Nat :=
  (.ok (), b.data)

/-- The terminal writer of `fmt/writer/mod.rs`, with the current write
style (modelled from the spec, missing `fmt` module). -/
structure Writer where
  inner : BufferWriter
  write_style : WriteStyle
deriving DecidableEq, Repr

/-- Embeds `Writer::print`. -/
def Writer.print (w : Writer) (b : Buffer) : Except IoError Unit × List Nat :=
  w.inner.print b

/-- Modelled from the spec (section 3, missing `fmt` module): the per-thread
formatter state is a render buffer plus a snapshot of the write style it
was built against. -/
structure Formatter where
  buf : Buffer
  style : WriteStyle
deriving DecidableEq, Repr

/-- Embeds `Formatter::new`: a fresh empty buffer bound to the logger
writer's current style. -/
def Formatter.new (w : Writer) : Formatter :=
  ⟨Buffer.new, w.write_style⟩

/-- Embeds `Formatter::write_style`: the stored style snapshot. -/
def Formatter.write_style (f : Formatter) : WriteStyle :=
  f.style

/-- Embeds `Formatter::clear`: clears the buffer content only. -/
def Formatter.clear (f : Formatter) : Formatter :=
  { f with buf := f.buf.clear }

/-- Embeds `Formatter::print`: delivers the buffer bytes through the
writer. -/
def Formatter.print (f : Formatter) (w : Writer) : Except IoError Unit × List Nat :=
  w.print f.buf

/-- A render function for one record: the bytes it writes into the
formatter and whether it returns `Ok`. -/
def FormatFn : Type :=
  Formatter → List Nat × Bool

/-- Runs the render function against a formatter: its bytes are appended to
the buffer through `Buffer::write`. -/
def runFormat (fn : FormatFn) (f : Formatter) : Formatter × Bool :=
  let r := fn f
  ({ f with buf := (f.buf.write r.1).1 }, r.2)

/-- Embeds the `print` closure of `Logger::log` (lib.rs): render, print to
the sink only when rendering succeeded, discard any error, and always
clear the buffer afterwards. Returns the formatter as left behind and the
bytes delivered to the sink; no error escapes. -/
def printRecord (w : Writer) (fn : FormatFn) (f : Formatter) :
    Formatter × List Nat :=
  let fr := runFormat fn f
  let out := if fr.2 then (fr.1.print w).2 else []
  (fr.1.clear, out)

/-- State of the thread-local formatter slot as `Logger::log` can observe
it: available (with the cached formatter and whether the `RefCell` is
already borrowed), or gone because thread-local storage was torn down. -/
inductive TLState where
  | avail (slot : Option Formatter) (borrowed : Bool)
  | gone
deriving DecidableEq, Repr

/-- Embeds the body of `Logger::log` past the filter check (lib.rs):
borrowed slot or unavailable storage renders with a throwaway formatter
and leaves the slot alone; otherwise the cached formatter is reused when
its style snapshot matches the writer's style, or rebuilt and re-cached
when it is absent or stale. -/
def logWith (w : Writer) (fn : FormatFn) (st : TLState) : TLState × List Nat :=
  match st with
  | .gone => (.gone, (printRecord w fn (Formatter.new w)).2)
  | .avail slot borrowed =>
    if borrowed then (.avail slot borrowed, (printRecord w fn (Formatter.new w)).2)
    else
      match slot with
      | none =>
        let r := printRecord w fn (Formatter.new w)
        (.avail (some r.1) false, r.2)
      | some f =>
        let f0 := if f.write_style ≠ w.write_style then Formatter.new w else f
        let r := printRecord w fn f0
        (.avail (some r.1) false, r.2)

/-- The logger of lib.rs: a writer, a compiled filter and a render
function. -/
structure Logger where
  writer : Writer
  filter : Filter
  format : FormatFn

/-- Embeds `Logger::filter`: the maximum level the instance can output. -/
def Logger.filterLevel (lg : Logger) : LevelFilter :=
  lg.filter.filter

/-- Embeds `Log::enabled` for the logger: delegates to the compiled
filter. -/
def Logger.enabled (lg : Logger) (target : List Char) (level : Level) : Bool :=
  lg.filter.enabled target level

/-- Embeds `Log::log`: records failing the filter are dropped without
touching the thread-local state; accepted records go through `logWith`. -/
def Logger.log (lg : Logger) (target : List Char) (level : Level)
    (msg : List Char) (st : TLState) : TLState × List Nat :=
  if lg.filter.matchesRecord target level msg then logWith lg.writer lg.format st
  else (st, [])

/-- Embeds `Log::flush`: a no-op. -/
def Logger.flush (_ : Logger) : Unit :=
  ()

/-- Log target of `fmt/writer/mod.rs`. -/
inductive Target where
  | Stdout
  | Stderr
deriving DecidableEq, Repr

/-- The writer builder of `fmt/writer/mod.rs` (the write style it passes to
the writer is modelled from the spec, missing `fmt` module). -/
structure WriterBuilder where
  target : Target
  is_test : Bool
  write_style : WriteStyle
  built : Bool
deriving DecidableEq, Repr

/-- Embeds `writer::Builder::build`: asserts the builder was not consumed
(a failed assertion is a panic, represented as `Except.error` with the
panic message), then marks it consumed and produces the writer. -/
def WriterBuilder.build (b : WriterBuilder) :
    Except (List Char) (Writer × WriterBuilder) :=
  if b.built then .error "attempt to re-use consumed builder".data
  else .ok (⟨⟨⟩, b.write_style⟩, { b with built := true })

/-- The filter builder: the directives and pattern accumulated so far. -/
structure FilterBuilder where
  directives : List Directive
  pattern : Option (List Char)
deriving DecidableEq, Repr

/-- Modelled from the spec (missing `filter` module): building the filter
compiles the accumulated directives. -/
def FilterBuilder.build (b : FilterBuilder) : Filter :=
  build_filter b.directives b.pattern

/-- Modelled from the spec (missing `filter` module): `parse` appends the
directives parsed from the string and installs its pattern. -/
def FilterBuilder.parse (b : FilterBuilder) (s : List Char) : FilterBuilder :=
  let r := parse_spec s
  ⟨b.directives ++ r.directives, r.pattern⟩

/-- The logger builder of lib.rs with its one-shot `built` flag. -/
structure Builder where
  filter : FilterBuilder
  writer : WriterBuilder
  format : FormatFn
  built : Bool

/-- Embeds `Builder::build`: asserts the builder was not consumed (a failed
assertion is a panic, represented as `Except.error` with the panic
message), marks it consumed, and assembles the logger from the sub
builders. -/
def Builder.build (b : Builder) : Except (List Char) (Logger × Builder) :=
  if b.built then .error "attempt to re-use consumed builder".data
  else
    match b.writer.build with
    | .error e => .error e
    | .ok (w, wb) =>
      .ok (⟨w, b.filter.build, b.format⟩, { b with writer := wb, built := true })

/-- Process-wide state of the `log` facade: whether a boxed logger has been
registered and the global maximum level gate. -/
structure GlobalLogState where
  registered : Bool
  maxLevel : LevelFilter
deriving DecidableEq, Repr

/-- Error returned by `log::set_boxed_logger` when a logger is already
installed. -/
inductive SetLoggerError where
  | alreadySet
deriving DecidableEq, Repr

/-- The `log` crate's registration: fails iff a logger is already
registered, in which case the state is unchanged. -/
def set_boxed_logger (g : GlobalLogState) :
    GlobalLogState × Except SetLoggerError Unit :=
  if g.registered then (g, .error .alreadySet)
  else ({ g with registered := true }, .ok ())

/-- The `log` crate's global gate setter. -/
def set_max_level (g : GlobalLogState) (lv : LevelFilter) : GlobalLogState :=
  { g with maxLevel := lv }

/-- How a `try_init` call can fail: the builder assertion panicked, or
registration was refused. -/
inductive InitError where
  | panicked (msg : List Char)
  | setLogger (e : SetLoggerError)
deriving DecidableEq, Repr

/-- Embeds `Builder::try_init` (lib.rs): build the logger, take its maximum
level, register it, and set the global maximum level only when
registration succeeded. -/
def try_init (b : Builder) (g : GlobalLogState) :
    GlobalLogState × Except InitError Unit :=
  match b.build with
  | .error e => (g, .error (.panicked e))
  | .ok (lg, _) =>
    let max_level := lg.filterLevel
    let r := set_boxed_logger g
    match r.2 with
    | .ok _ => (set_max_level r.1 max_level, .ok ())
    | .error e => (r.1, .error (.setLogger e))

/-! Equivalence of the compiled pass with the declarative scan. -/

lemma foldr_maxLen (l : List Directive) (a : Nat) :
    l.foldr (fun d m => Nat.max (dirLen d.name) m) a = Nat.max (maxLenOf l) a := by
  induction l with
  | nil => simp [maxLenOf]
  | cons x xs ih => simp [maxLenOf, ih, Nat.max_assoc]

lemma maxLenOf_concat (l : List Directive) (d : Directive) :
    maxLenOf (l ++ [d]) = Nat.max (maxLenOf l) (dirLen d.name) := by
  unfold maxLenOf
  rw [List.foldr_append]
  simp [foldr_maxLen l]

lemma maxPrefixLen_eq (ds : List Directive) (t : List Char) :
    maxPrefixLen ds t = maxLenOf (matchingDirs ds t) := by
  induction ds with
  | nil => rfl
  | cons d rest ih =>
    by_cases h : dirMatches d t
    · simp [maxPrefixLen, matchingDirs, List.filter_cons, h, maxLenOf, ih]
    · simp [maxPrefixLen, matchingDirs, List.filter_cons, h, ih]

lemma matchingDirs_concat (ds : List Directive) (d : Directive) (t : List Char) :
    matchingDirs (ds ++ [d]) t =
      matchingDirs ds t ++ (if dirMatches d t then [d] else []) := by
  by_cases h : dirMatches d t <;>
    simp [matchingDirs, List.filter_append, List.filter_cons, h]

lemma selectBest_concat (ds : List Directive) (d : Directive) (t : List Char) :
    selectBest (ds ++ [d]) t = stepBest t (selectBest ds t) d := by
  unfold selectBest
  rw [List.foldl_append]
  rfl

lemma select_spec_inv (t : List Char) (ds : List Directive) :
    selectBest ds t = scanSelect ds t ∧
      (∀ b, scanSelect ds t = some b →
        dirMatches b t = true ∧ dirLen b.name = maxPrefixLen ds t) ∧
      (scanSelect ds t = none ↔ matchingDirs ds t = []) := by
  induction ds using List.reverseRecOn with
  | nil => simp [selectBest, scanSelect, matchingDirs]
  | append_singleton l d ih =>
    obtain ⟨ih1, ih2, ih3⟩ := ih
    have hmlen : maxPrefixLen (l ++ [d]) t =
        if dirMatches d t then Nat.max (maxPrefixLen l t) (dirLen d.name)
        else maxPrefixLen l t := by
      by_cases h : dirMatches d t <;>
        simp [maxPrefixLen_eq, matchingDirs_concat, h, maxLenOf_concat]
    by_cases hm : dirMatches d t
    · -- the appended directive applies to the target
      cases hsel : scanSelect l t with
      | none =>
        have hempty : matchingDirs l t = [] := ih3.mp hsel
        have hzero : maxPrefixLen l t = 0 := by
          rw [maxPrefixLen_eq, hempty]; rfl
        have hlen : maxPrefixLen (l ++ [d]) t = dirLen d.name := by
          rw [hmlen]; simp [hm, hzero]
        have hscan : scanSelect (l ++ [d]) t = some d := by
          unfold scanSelect
          rw [matchingDirs_concat, hempty, hlen]
          simp [hm]
        refine ⟨?_, ?_, ?_⟩
        · rw [selectBest_concat, ih1, hsel, hscan]
          simp [stepBest, hm]
        · intro b hb
          rw [hscan] at hb
          cases hb
          exact ⟨hm, hlen.symm⟩
        · rw [hscan, matchingDirs_concat, hempty]
          simp [hm]
      | some b =>
        obtain ⟨hmb, hlb⟩ := ih2 b hsel
        by_cases hle : dirLen b.name ≤ dirLen d.name
        · -- the new directive is at least as specific: it wins
          have hlen : maxPrefixLen (l ++ [d]) t = dirLen d.name := by
            rw [hmlen]
            simp [hm, Nat.max_eq_right (hlb ▸ hle)]
          have hscan : scanSelect (l ++ [d]) t = some d := by
            unfold scanSelect
            rw [matchingDirs_concat, hlen]
            simp [hm, List.filter_append]
          refine ⟨?_, ?_, ?_⟩
          · rw [selectBest_concat, ih1, hsel, hscan]
            simp [stepBest, hm, hle]
          · intro b' hb'
            rw [hscan] at hb'
            cases hb'
            exact ⟨hm, hlen.symm⟩
          · rw [hscan, matchingDirs_concat]
            simp [hm]
        · -- the old best is strictly more specific: it survives
          have hlt : dirLen d.name < dirLen b.name := Nat.lt_of_not_le hle
          have hlen : maxPrefixLen (l ++ [d]) t = maxPrefixLen l t := by
            rw [hmlen]
            simp [hm, Nat.max_eq_left (Nat.le_of_lt (hlb ▸ hlt))]
          have hdfail : ¬(dirLen d.name = maxPrefixLen l t) := by
            rw [← hlb]
            exact Nat.ne_of_lt hlt
          have hscan : scanSelect (l ++ [d]) t = scanSelect l t := by
            unfold scanSelect
            rw [matchingDirs_concat, hlen]
            simp [hm, List.filter_append, hdfail]
          refine ⟨?_, ?_, ?_⟩
          · rw [selectBest_concat, ih1, hsel, hscan, hsel]
            simp [stepBest, hm, hle]
          · intro b' hb'
            rw [hscan] at hb'
            obtain ⟨h1, h2⟩ := ih2 b' hb'
            exact ⟨h1, by rw [hlen]; exact h2⟩
          · rw [hscan, hsel, matchingDirs_concat]
            simp [hm]
    · -- the appended directive does not apply: nothing changes
      have hmd : matchingDirs (l ++ [d]) t = matchingDirs l t := by
        rw [matchingDirs_concat]; simp [hm]
      have hscan : scanSelect (l ++ [d]) t = scanSelect l t := by
        unfold scanSelect
        rw [hmd, hmlen]
        simp [hm]
      refine ⟨?_, ?_, ?_⟩
      · rw [selectBest_concat, ih1, hscan]
        simp [stepBest, hm]
      · intro b hb
        rw [hscan] at hb
        obtain ⟨h1, h2⟩ := ih2 b hb
        refine ⟨h1, ?_⟩
        rw [hmlen]
        simp [hm, h2]
      · rw [hscan, hmd]
        exact ih3

lemma selectBest_eq_scanSelect (ds : List Directive) (t : List Char) :
    selectBest ds t = scanSelect ds t :=
  (select_spec_inv t ds).1

/-! Bounds on the maximum enabled severity. -/

lemma LevelFilter.toNat_max (a b : LevelFilter) :
    (LevelFilter.max a b).toNat = Nat.max a.toNat b.toNat := by
  unfold LevelFilter.max
  split
  · exact (Nat.max_eq_right (by assumption)).symm
  · exact (Nat.max_eq_left (Nat.le_of_not_le (by assumption))).symm

lemma foldl_maxLevel_toNat (ds : List Directive) :
    ∀ init : LevelFilter,
      (ds.foldl (fun m d => LevelFilter.max m d.level) init).toNat =
        Nat.max init.toNat ((ds.map (fun d => d.level.toNat)).foldr Nat.max 0) := by
  induction ds with
  | nil => intro init; simp
  | cons d rest ih =>
    intro init
    simp only [List.foldl_cons, List.map_cons, List.foldr_cons]
    rw [ih, LevelFilter.toNat_max]
    exact Nat.max_assoc _ _ _

lemma level_le_foldl_max (ds : List Directive) :
    ∀ (init : LevelFilter) (d : Directive), d ∈ ds →
      d.level.toNat ≤ (ds.foldl (fun m d => LevelFilter.max m d.level) init).toNat := by
  induction ds with
  | nil => intro _ _ h; cases h
  | cons x rest ih =>
    intro init d hd
    rcases List.mem_cons.mp hd with rfl | hd'
    · simp only [List.foldl_cons]
      rw [foldl_maxLevel_toNat]
      calc d.level.toNat ≤ (LevelFilter.max init d.level).toNat := by
            rw [LevelFilter.toNat_max]; exact Nat.le_max_right _ _
        _ ≤ _ := Nat.le_max_left _ _
    · simp only [List.foldl_cons]
      exact ih _ d hd'

lemma mem_of_foldl_stepBest (t : List Char) (ds : List Directive) :
    ∀ (acc : Option Directive) (d : Directive),
      ds.foldl (stepBest t) acc = some d → acc = some d ∨ d ∈ ds := by
  induction ds with
  | nil => intro acc d h; exact Or.inl h
  | cons x rest ih =>
    intro acc d h
    rcases ih (stepBest t acc x) d h with h' | h'
    · by_cases hm : dirMatches x t
      · cases acc with
        | none =>
          simp [stepBest, hm] at h'
          exact Or.inr (h' ▸ List.mem_cons_self x rest)
        | some b =>
          simp only [stepBest, hm, if_true] at h'
          split at h'
          · exact Or.inr (by cases h'; exact List.mem_cons_self x rest)
          · exact Or.inl h'
      · simp [stepBest, hm] at h'
        exact Or.inl (by rw [h'])
    · exact Or.inr (List.mem_cons_of_mem _ h')

lemma mem_of_selectBest (ds : List Directive) (t : List Char) (d : Directive)
    (h : selectBest ds t = some d) : d ∈ ds := by
  rcases mem_of_foldl_stepBest t ds none d h with h' | h'
  · cases h'
  · exact h'

lemma parse_fold_length (entries : List (List Char)) :
    ∀ acc : List Directive × List (List Char),
      (entries.foldl parse_step acc).1.length + (entries.foldl parse_step acc).2.length ≤
        acc.1.length + acc.2.length + entries.length := by
  induction entries with
  | nil => intro acc; simp
  | cons e rest ih =>
    intro acc
    simp only [List.foldl_cons, List.length_cons]
    refine Nat.le_trans (ih (parse_step acc e)) ?_
    unfold parse_step
    cases parse_entry e with
    | error msg =>
      dsimp only
      simp only [List.length_append, List.length_cons, List.length_nil]
      omega
    | ok o => cases o with
      | none => dsimp only; omega
      | some d =>
        dsimp only
        simp only [List.length_append, List.length_cons, List.length_nil]
        omega

/-! Claim theorems about the filter engine. -/

/-- Claim C1: for the directive string `"warn,my::mod=debug"`, the compiled
filter enables `("my::mod", Debug)` and `("other::mod", Warn)` and disables
`("my::mod", Trace)` and `("other::mod", Info)`. -/
theorem scenario_warn_mymod_debug :
    (filter_of_spec "warn,my::mod=debug".data).enabled "my::mod".data .Debug = true ∧
      (filter_of_spec "warn,my::mod=debug".data).enabled "my::mod".data .Trace = false ∧
      (filter_of_spec "warn,my::mod=debug".data).enabled "other::mod".data .Info = false ∧
      (filter_of_spec "warn,my::mod=debug".data).enabled "other::mod".data .Warn = true := by
  decide

/-- Claim C2: for every directive string (hence every parsed directive list)
and every target and level, the compiled filter's `enabled` coincides with
the direct linear scan that picks the longest matching prefix, breaking
ties by last declared, and disables targets with no matching directive. -/
theorem compiled_enabled_eq_linear_scan (s target : List Char) (level : Level) :
    (filter_of_spec s).enabled target level =
      scanEnabled (parse_spec s).directives target level := by
  unfold filter_of_spec build_filter Filter.enabled scanEnabled
  rw [selectBest_eq_scanSelect]

/-- Claim C3: the compiled filter's `max_level` (what `Logger::filter`
returns) is the maximum severity over all directives, and consequently no
record enabled by the filter has a level above `max_level`. -/
theorem max_level_is_max_and_bounds_enabled (ds : List Directive)
    (pat : Option (List Char)) (t : List Char) (lv : Level) :
    (build_filter ds pat).filter.toNat =
        (ds.map (fun d => d.level.toNat)).foldr Nat.max 0 ∧
      ((build_filter ds pat).enabled t lv = true →
        lv.toNat ≤ (build_filter ds pat).filter.toNat) := by
  constructor
  · show (ds.foldl (fun m d => LevelFilter.max m d.level) .Off).toNat = _
    rw [foldl_maxLevel_toNat]
    simp [LevelFilter.toNat]
  · intro h
    unfold Filter.enabled at h
    cases hsel : selectBest (build_filter ds pat).directives t with
    | none => rw [hsel] at h; cases h
    | some d =>
      rw [hsel] at h
      simp only [decide_eq_true_eq] at h
      have hd : d ∈ ds := mem_of_selectBest ds t d hsel
      exact Nat.le_trans h (level_le_foldl_max ds .Off d hd)

/-- Witness for claim C3 at a concrete input where the hypothesis holds. -/
theorem max_level_bounds_enabled_witness :
    (build_filter [⟨none, .Warn⟩] none).enabled "x".data .Warn = true ∧
      Level.Warn.toNat ≤ (build_filter [⟨none, .Warn⟩] none).filter.toNat :=
  ⟨by decide,
    (max_level_is_max_and_bounds_enabled [⟨none, .Warn⟩] none "x".data .Warn).2
      (by decide)⟩

/-- Claim C4: parsing is a total function that yields bounded, ordered
output on every input (never panics), and a malformed entry inside an
otherwise valid string is reported without stopping the remaining entries
from taking effect: the global `info` still enables `Info` elsewhere and
`my::mod=warn` still caps `my::mod` at `Warn`. -/
theorem malformed_entry_does_not_abort_parsing :
    (∀ s : List Char,
      (parse_spec s).directives.length + (parse_spec s).errors.length ≤
        (splitOnChar ',' ((splitOnChar '/' s).headD [])).length) ∧
      (parse_spec "info,bogus=notalevel,my::mod=warn".data).directives =
        [⟨none, .Info⟩, ⟨some "my::mod".data, .Warn⟩] ∧
      (parse_spec "info,bogus=notalevel,my::mod=warn".data).errors =
        ["bogus=notalevel".data] ∧
      (filter_of_spec "info,bogus=notalevel,my::mod=warn".data).enabled
        "other".data .Info = true ∧
      (filter_of_spec "info,bogus=notalevel,my::mod=warn".data).enabled
        "my::mod".data .Info = false := by
  refine ⟨?_, by decide, by decide, by decide, by decide⟩
  intro s
  have h := parse_fold_length (splitOnChar ',' ((splitOnChar '/' s).headD [])) ([], [])
  simpa [parse_spec] using h

/-! Claim theorems about the logger facade and the sink. -/

/-- Claim C5: the `print` closure of `Logger::log` exposes no error to its
caller (its result type carries no error channel, and the statement holds
for every render outcome, failed ones included); after the call the
formatter is exactly the post-render formatter with its buffer content
cleared and its capacity retained. -/
theorem log_swallows_errors_and_clears_buffer (w : Writer) (fn : FormatFn)
    (f : Formatter) :
    (printRecord w fn f).1.buf.data = [] ∧
      (printRecord w fn f).1.buf.cap = ((runFormat fn f).1).buf.cap ∧
      (printRecord w fn f).1 = ((runFormat fn f).1).clear :=
  ⟨rfl, rfl, rfl⟩

/-- Claim C6: a log call finding the thread-local slot already borrowed, or
thread-local storage gone, renders with a fresh throwaway formatter (empty
buffer, zero capacity) that is not cached: the stored slot—hence the outer
call's buffer—is left untouched, so the inner call's bytes never reach the
outer call's buffer. -/
theorem reentrant_log_uses_throwaway_formatter (w : Writer) (fn : FormatFn)
    (slot : Option Formatter) :
    logWith w fn (.avail slot true) =
        (.avail slot true, (printRecord w fn (Formatter.new w)).2) ∧
      logWith w fn .gone = (.gone, (printRecord w fn (Formatter.new w)).2) ∧
      (Formatter.new w).buf.data = [] ∧
      (Formatter.new w).buf.cap = 0 :=
  ⟨rfl, rfl, rfl, rfl⟩

/-- Claim C7: on a non-reentrant log call the cached formatter is reused
exactly when its style snapshot matches the writer's current style; a
missing or stale cached state is replaced by a freshly built formatter
(new empty buffer), and whatever ends up cached always snapshots the
writer's current style. -/
theorem formatter_cache_reuse_and_rebuild (w : Writer) (fn : FormatFn)
    (f : Formatter) :
    (f.write_style = w.write_style →
      logWith w fn (.avail (some f) false) =
        (.avail (some (printRecord w fn f).1) false, (printRecord w fn f).2)) ∧
      (f.write_style ≠ w.write_style →
        logWith w fn (.avail (some f) false) =
          (.avail (some (printRecord w fn (Formatter.new w)).1) false,
            (printRecord w fn (Formatter.new w)).2)) ∧
      (logWith w fn (.avail none false) =
        (.avail (some (printRecord w fn (Formatter.new w)).1) false,
          (printRecord w fn (Formatter.new w)).2)) ∧
      (∀ g, (logWith w fn (.avail (some f) false)).1 = .avail (some g) false →
        g.write_style = w.write_style) := by
  have hstyle : ∀ f' : Formatter, ((printRecord w fn f').1).write_style = f'.write_style :=
    fun _ => rfl
  have h1 : ∀ f0 : Formatter, logWith w fn (.avail (some f0) false) =
      (.avail (some (printRecord w fn
          (if f0.write_style ≠ w.write_style then Formatter.new w else f0)).1) false,
        (printRecord w fn
          (if f0.write_style ≠ w.write_style then Formatter.new w else f0)).2) :=
    fun _ => rfl
  refine ⟨?_, ?_, rfl, ?_⟩
  · intro h
    rw [h1]
    simp [h]
  · intro h
    rw [h1]
    simp [h]
  · intro g hg
    rw [h1] at hg
    have hX : (printRecord w fn
        (if f.write_style ≠ w.write_style then Formatter.new w else f)).1 = g := by
      simpa using hg
    rw [← hX, hstyle]
    by_cases h : f.write_style = w.write_style
    · rw [if_neg (not_not_intro h)]
      exact h
    · rw [if_pos h]
      rfl

/-- Witness for claim C7 at a concrete matching cached formatter. -/
theorem formatter_cache_reuse_witness :
    logWith ⟨⟨⟩, .Never⟩ (fun _ => ([7], true))
        (.avail (some (Formatter.new ⟨⟨⟩, .Never⟩)) false) =
      (.avail (some (printRecord ⟨⟨⟩, .Never⟩ (fun _ => ([7], true))
          (Formatter.new ⟨⟨⟩, .Never⟩)).1) false,
        (printRecord ⟨⟨⟩, .Never⟩ (fun _ => ([7], true))
          (Formatter.new ⟨⟨⟩, .Never⟩)).2) :=
  (formatter_cache_reuse_and_rebuild ⟨⟨⟩, .Never⟩ (fun _ => ([7], true))
    (Formatter.new ⟨⟨⟩, .Never⟩)).1 rfl

/-- Claim C8: calling `build` on an already consumed builder—the logger
builder or the writer builder—panics with "attempt to re-use consumed
builder" (embedded as `Except.error` with that message) instead of
returning a second instance, while a first `build` on a fresh builder
succeeds and the builder it returns is consumed. -/
theorem consumed_builder_build_panics (b : Builder) (wb : WriterBuilder) :
    (b.built = true → b.build = .error "attempt to re-use consumed builder".data) ∧
      (wb.built = true →
        wb.build = .error "attempt to re-use consumed builder".data) ∧
      (b.built = false → b.writer.built = false →
        ∃ lg b', b.build = .ok (lg, b') ∧ b'.built = true ∧
          b'.build = .error "attempt to re-use consumed builder".data) ∧
      (wb.built = false → ∃ r, wb.build = .ok r) := by
  refine ⟨?_, ?_, ?_, ?_⟩
  · intro h
    simp [Builder.build, h]
  · intro h
    simp [WriterBuilder.build, h]
  · intro h hw
    refine ⟨⟨⟨⟨⟩, b.writer.write_style⟩, b.filter.build, b.format⟩,
      { b with writer := { b.writer with built := true }, built := true },
      ?_, rfl, ?_⟩
    · simp [Builder.build, WriterBuilder.build, h, hw]
    · simp [Builder.build]
  · intro h
    exact ⟨(⟨⟨⟩, wb.write_style⟩, { wb with built := true }),
      by simp [WriterBuilder.build, h]⟩

/-- A concrete fresh builder used by witnesses. -/
def b0 : Builder :=
  ⟨⟨[⟨none, .Warn⟩], none⟩, ⟨.Stderr, false, .Auto, false⟩, fun _ => ([], true), false⟩

/-- Witness for claim C8: the fresh builder builds once, and building again
from the consumed builder fails with the panic message. -/
theorem consumed_builder_build_panics_witness :
    ({ b0 with built := true } : Builder).build =
        .error "attempt to re-use consumed builder".data ∧
      ∃ lg b', b0.build = .ok (lg, b') ∧ b'.built = true ∧
        b'.build = .error "attempt to re-use consumed builder".data :=
  ⟨(consumed_builder_build_panics { b0 with built := true } b0.writer).1 rfl,
    (consumed_builder_build_panics b0 b0.writer).2.2.1 rfl rfl⟩

/-- Claim C9: the embedded byte sink is infallible: `Buffer::write` returns
`Ok` of exactly the input length and appends exactly those bytes, and
`Buffer::flush` and `BufferWriter::print` always return `Ok`, so a
delivery error can never occur. -/
theorem sink_is_infallible (b : Buffer) (bytes : List Nat) (w : BufferWriter) :
    (b.write bytes).2 = .ok bytes.length ∧
      (b.write bytes).1.data = b.data ++ bytes ∧
      b.flush.2 = .ok () ∧
      (w.print b).1 = .ok () :=
  ⟨rfl, rfl, rfl, rfl⟩

/-- Claim C10: `Builder::try_init` sets the process-wide maximum level only
when registering the logger succeeded; when registration fails it returns
the error and leaves the whole global state—its maximum level
included—unchanged. -/
theorem try_init_gates_max_level (b : Builder) (g : GlobalLogState)
    (hb : b.built = false) (hw : b.writer.built = false) :
    (g.registered = true →
      (try_init b g).1 = g ∧
        (try_init b g).2 = .error (.setLogger .alreadySet)) ∧
      (g.registered = false →
        (try_init b g).1.maxLevel = b.filter.build.filter ∧
          (try_init b g).1.registered = true ∧
          (try_init b g).2 = .ok ()) := by
  have hbuild : b.build = .ok (⟨⟨⟨⟩, b.writer.write_style⟩, b.filter.build, b.format⟩,
      { b with writer := { b.writer with built := true }, built := true }) := by
    simp [Builder.build, WriterBuilder.build, hb, hw]
  constructor
  · intro hreg
    unfold try_init
    rw [hbuild]
    simp [set_boxed_logger, hreg]
  · intro hreg
    unfold try_init
    rw [hbuild]
    simp [set_boxed_logger, set_max_level, hreg, Logger.filterLevel]

/-- Witness for claim C10: with a logger already registered, `try_init`
fails and leaves the global state unchanged. -/
theorem try_init_gates_max_level_witness :
    (try_init b0 ⟨true, .Off⟩).1 = ⟨true, .Off⟩ ∧
      (try_init b0 ⟨true, .Off⟩).2 = .error (.setLogger .alreadySet) :=
  (try_init_gates_max_level b0 ⟨true, .Off⟩ rfl rfl).1 rfl

end IcLog
